import Mathlib

/-!
Verification of the chunked-retrieval meeting summarizer
(`backend/app/Ollama_Transcript.py`).

The embedding models the pure content of the program:

* documents and chunk texts are `List Char` (Python `str` slicing becomes
  `drop`/`take`);
* the ChromaDB collection is a `List Chunk` (insertion order, queried through
  an external similarity index whose choice of best match is a `pick` index);
* the Pydantic models `Block`, `Section`, `SummaryResponse` are structures
  with exactly the fields of the source;
* the mutable `MeetingSummarizer` / collection state is passed explicitly;
* tool functions return their status string together with the new state;
* the `range` ValueError that `process_transcript` can raise is an
  `Except.error`.
-/

namespace MeetingMinutes

/-- A stored transcript chunk: ChromaDB holds a document (text) under an id.
Metadata (`source`, `processed`) is never read back by the program and is
omitted. -/
structure Chunk where
  id : String
  text : List Char
  deriving Repr, DecidableEq

/-- `class Block(BaseModel)`: fields exactly as in the source — `id`, `type`,
`content`, `color`.  The source's `Block` has no title field. -/
structure Block where
  id : String
  type : String
  content : String
  color : String
  deriving Repr, DecidableEq

/-- `class Section(BaseModel)`: a titled list of blocks. -/
structure Section where
  title : String
  blocks : List Block
  deriving Repr, DecidableEq

/-- `class SummaryResponse(BaseModel)`: the four fixed sections. -/
structure SummaryResponse where
  Agenda : Section
  Decisions : Section
  ActionItems : Section
  ClosingRemarks : Section
  deriving Repr, DecidableEq

/-- The mutable section state of `MeetingSummarizer`. -/
structure MeetingSummarizer where
  Agenda : Section
  Decisions : Section
  ActionItems : Section
  ClosingRemarks : Section
  deriving Repr, DecidableEq

/-- `MeetingSummarizer.__init__`: four empty sections with the titles from the
source. -/
def initSummarizer : MeetingSummarizer :=
  { Agenda := { title := "Agenda", blocks := [] }
    Decisions := { title := "Decisions", blocks := [] }
    ActionItems := { title := "Action Items", blocks := [] }
    ClosingRemarks := { title := "Closing Remarks", blocks := [] } }

/-- `MeetingSummarizer.create_block`: the fresh uuid is passed in as `id`
(uuid generation is an external effect).  Note that the source constructs
`Block(id=..., type=block_type, content=content, color=color)` — the `title`
parameter is accepted but not used. -/
def create_block (id : String) (title : String) (content : String)
    (block_type : String := "item") (color : String := "default") : Block :=
  { id := id, type := block_type, content := content, color := color }

/-- `MeetingSummarizer.add_action_item`: append a block of type `"action"` to
`ActionItems` and return the status string. -/
def add_action_item (s : MeetingSummarizer) (id title content : String) :
    MeetingSummarizer × String :=
  let block := create_block id title content "action"
  ({ s with ActionItems :=
      { s.ActionItems with blocks := s.ActionItems.blocks ++ [block] } },
   "Successfully added action item: " ++ block.id)

/-- `MeetingSummarizer.add_agenda_item`. -/
def add_agenda_item (s : MeetingSummarizer) (id title content : String) :
    MeetingSummarizer × String :=
  let block := create_block id title content "agenda"
  ({ s with Agenda :=
      { s.Agenda with blocks := s.Agenda.blocks ++ [block] } },
   "Successfully added agenda item: " ++ block.id)

/-- `MeetingSummarizer.add_decision`. -/
def add_decision (s : MeetingSummarizer) (id title content : String) :
    MeetingSummarizer × String :=
  let block := create_block id title content "decision"
  ({ s with Decisions :=
      { s.Decisions with blocks := s.Decisions.blocks ++ [block] } },
   "Successfully added decision: " ++ block.id)

/-- `MeetingSummarizer.generate_summary`: returns the three accumulated
sections together with a freshly constructed empty Closing Remarks section
(the stored `ClosingRemarks` field is not consulted). -/
def generate_summary (s : MeetingSummarizer) : SummaryResponse :=
  { Agenda := s.Agenda
    Decisions := s.Decisions
    ActionItems := s.ActionItems
    ClosingRemarks := { title := "Closing Remarks", blocks := [] } }

/-- All four sections of the accumulator hold no blocks. -/
def allSectionsEmpty (s : MeetingSummarizer) : Bool :=
  s.Agenda.blocks.isEmpty && s.Decisions.blocks.isEmpty
    && s.ActionItems.blocks.isEmpty && s.ClosingRemarks.blocks.isEmpty

/-- Tool `save_final_summary_result`: generate the summary; if no section of
the generated summary has any block, return the error observation and write
nothing; otherwise write the summary (the written artifact is returned in
place of the file) and report success.  File-system failure is an external
effect outside the model. -/
def save_final_summary_result (s : MeetingSummarizer) :
    String × Option SummaryResponse :=
  let summary := generate_summary s
  if summary.Agenda.blocks.isEmpty && summary.Decisions.blocks.isEmpty
      && summary.ActionItems.blocks.isEmpty
      && summary.ClosingRemarks.blocks.isEmpty then
    ("Error: No content found in summary. Please add some items first.", none)
  else
    ("Successfully saved final summary result to file", some summary)

/-- Tool `get_final_summary`: `return summarizer.generate_summary(ctx)` — the
body is a single unconditional return, so the result is always `ok`. -/
def get_final_summary (s : MeetingSummarizer) : Except String SummaryResponse :=
  Except.ok (generate_summary s)

/-- Python whitespace for `str.strip()`: space, tab, newline, carriage
return, vertical tab, form feed. -/
def isPySpace (c : Char) : Bool :=
  c == ' ' || c == '\t' || c == '\n' || c == '\r'
    || c == Char.ofNat 11 || c == Char.ofNat 12

/-- Python `str.strip()` on a character list. -/
def pyStrip (s : List Char) : List Char :=
  ((s.dropWhile isPySpace).reverse.dropWhile isPySpace).reverse

/-- Python `s[i:i+n]` for non-negative indices. -/
def pySlice (s : List Char) (i n : Nat) : List Char :=
  (s.drop i).take n

/-- Python `range(start, stop, step)` for a positive step. -/
def pyRangeUp (start stop step : Nat) : List Nat :=
  if h : start < stop ∧ 0 < step then
    start :: pyRangeUp (start + step) stop step
  else []
termination_by stop - start
decreasing_by omega

/-- The chunk list of `process_transcript`:
`[transcript[i:i+chunk_size] for i in range(0, len(transcript), chunk_size-overlap)]`
in the case `overlap < chunk_size` (positive step). -/
def splitChunks (transcript : List Char) (chunk_size overlap : Nat) :
    List (List Char) :=
  (pyRangeUp 0 transcript.length (chunk_size - overlap)).map
    (fun i => pySlice transcript i chunk_size)

/-- The `for i, chunk in enumerate(chunks)` insertion loop: chunk `i` is
stored under id `"id_i"`. -/
def storeChunks (i : Nat) : List (List Char) → List Chunk
  | [] => []
  | c :: rest => { id := "id_" ++ toString i, text := c } :: storeChunks (i + 1) rest

/-- `TranscriptProcessor.process_transcript` on an inline text document
(the path branch reads a file, an external effect; the resulting string is
the `transcript` here).  The collection is cleared before chunking, so the
returned chunk list *replaces* any prior store contents.  Python semantics
of `range(0, len, chunk_size - overlap)`:
* `chunk_size = overlap` — step `0`, `range` raises
  `ValueError: range() arg 3 must not be zero`, which the function re-raises
  (the store is already cleared at that point);
* `chunk_size < overlap` — negative step, `range` is empty: zero chunks are
  stored and `0` is returned, with no error;
* `overlap < chunk_size` — the usual positive-step chunking. -/
def process_transcript (transcript : List Char) (chunk_size overlap : Nat) :
    Except String Nat × List Chunk :=
  if chunk_size = overlap then
    (Except.error "ValueError: range() arg 3 must not be zero", [])
  else if chunk_size < overlap then
    (Except.ok 0, [])
  else
    let chunks := splitChunks transcript chunk_size overlap
    (Except.ok chunks.length, storeChunks 0 chunks)

/-- Tool `query_transcript`.  The external similarity index's answer to
`collection.query(query_texts=[query], n_results=1)` is modelled by the
`pick` index into the store; on a non-empty collection ChromaDB returns the
single most relevant chunk, i.e. `pick` is in range.  The tool then builds
`"\n" + doc + "\n"`, deletes the returned id, and returns the built string
`.strip()`-ped.  On an empty store it returns the exhausted sentinel. -/
def query_transcript (store : List Chunk) (pick : Nat) : String × List Chunk :=
  if store.isEmpty then
    ("CHROMADB_EMPTY: All chunks have been processed.", store)
  else
    match store[pick]? with
    | none => ("No results found for the query", store)
    | some c =>
        (String.mk (pyStrip (('\n' :: c.text) ++ ['\n'])),
         store.filter (fun x => !(x.id == c.id)))

/-- The attributes of the `pydantic_ai` `RunContext` that the program reads:
only `processed_chunks`, via `hasattr`; `none` models the attribute being
absent.  No constructor or tool of the program ever sets it. -/
structure RunContext where
  processed_chunks : Option (List String)
  deriving Repr, DecidableEq

/-- Tool `delete_processed_chunks`: if the context has no (or a falsy, i.e.
empty) `processed_chunks` attribute, report "No chunks to delete"; otherwise
delete those ids from the collection and clear the attribute. -/
def delete_processed_chunks (ctx : RunContext) (store : List Chunk) :
    String × List Chunk × RunContext :=
  match ctx.processed_chunks with
  | none => ("No chunks to delete", store, ctx)
  | some ids =>
      if ids.isEmpty then ("No chunks to delete", store, ctx)
      else
        ("Successfully deleted " ++ toString ids.length ++ " chunks",
         store.filter (fun c => !(ids.contains c.id)),
         { processed_chunks := some [] })

/-- The shared mutable state the seven agent tools act on: the run context,
the ChromaDB collection, and the summarizer sections. -/
structure AgentState where
  ctx : RunContext
  store : List Chunk
  summ : MeetingSummarizer
  deriving Repr

/-- One oracle-issued tool invocation.  `pick` carries the external
similarity index's choice for a query; `id` carries the externally generated
uuid of a new block. -/
inductive ToolCall where
  | queryTranscript (pick : Nat)
  | addActionItem (id title content : String)
  | addAgendaItem (id title content : String)
  | addDecision (id title content : String)
  | saveFinalSummaryResult
  | getFinalSummary
  | deleteProcessedChunks

/-- State transition of one tool dispatch (the returned observation strings
are modelled by the individual tool functions). -/
def stepTool (s : AgentState) : ToolCall → AgentState
  | ToolCall.queryTranscript pick =>
      { s with store := (query_transcript s.store pick).2 }
  | ToolCall.addActionItem id title content =>
      { s with summ := (add_action_item s.summ id title content).1 }
  | ToolCall.addAgendaItem id title content =>
      { s with summ := (add_agenda_item s.summ id title content).1 }
  | ToolCall.addDecision id title content =>
      { s with summ := (add_decision s.summ id title content).1 }
  | ToolCall.saveFinalSummaryResult => s
  | ToolCall.getFinalSummary => s
  | ToolCall.deleteProcessedChunks =>
      let r := delete_processed_chunks s.ctx s.store
      { s with store := r.2.1, ctx := r.2.2 }

/-- Run a sequence of tool invocations. -/
def runTools (s : AgentState) (calls : List ToolCall) : AgentState :=
  calls.foldl stepTool s

/-- Each chunk minus its first `overlap` characters, concatenated (used for
all chunks after the first in the spec's round-trip property). -/
def joinOverlapTail (overlap : Nat) : List (List Char) → List Char
  | [] => []
  | c :: rest => c.drop overlap ++ joinOverlapTail overlap rest

/-- The spec's round-trip recombination: the first chunk, followed by each
subsequent chunk minus its first `overlap` characters. -/
def joinOverlap (overlap : Nat) : List (List Char) → List Char
  | [] => []
  | c :: rest => c ++ joinOverlapTail overlap rest

/-! ## Properties of the range / chunking combinators -/

lemma pyRangeUp_stop {start stop step : Nat}
    (h : ¬(start < stop ∧ 0 < step)) :
    pyRangeUp start stop step = [] := by
  rw [pyRangeUp]
  simp [h]

lemma pyRangeUp_step {start stop step : Nat} (h1 : start < stop)
    (h2 : 0 < step) :
    pyRangeUp start stop step = start :: pyRangeUp (start + step) stop step := by
  rw [pyRangeUp]
  simp [h1, h2]

lemma pyRangeUp_shift_aux (step : Nat) (hs : 0 < step) :
    ∀ n stop start, stop - start ≤ n →
      pyRangeUp start stop step
        = (pyRangeUp 0 (stop - start) step).map (· + start) := by
  intro n
  induction n with
  | zero =>
      intro stop start h
      rw [pyRangeUp_stop (by omega), pyRangeUp_stop (by omega)]
      rfl
  | succ n ih =>
      intro stop start h
      by_cases hlt : start < stop
      · rw [pyRangeUp_step hlt hs, ih stop (start + step) (by omega),
          pyRangeUp_step (show 0 < stop - start by omega) hs,
          ih (stop - start) (0 + step) (by omega)]
        have he : stop - (start + step) = stop - start - (0 + step) := by omega
        rw [he]
        simp only [List.map_cons, List.map_map, Nat.zero_add]
        congr 1
        apply List.map_congr_left
        intro x _
        simp only [Function.comp_apply]
        omega
      · rw [pyRangeUp_stop (by omega), pyRangeUp_stop (by omega)]
        rfl

lemma pyRangeUp_shift (step : Nat) (hs : 0 < step) (stop start : Nat) :
    pyRangeUp start stop step
      = (pyRangeUp 0 (stop - start) step).map (· + start) :=
  pyRangeUp_shift_aux step hs (stop - start) stop start (Nat.le_refl _)

lemma ceil_div_aux (stop step : Nat) (h0 : 0 < stop) (hs : 0 < step) :
    (stop + step - 1) / step = (stop - step + step - 1) / step + 1 := by
  have h1 : stop + step - 1 = (stop - 1) + step := by omega
  rw [h1, Nat.add_div_right _ hs]
  rcases le_or_lt step stop with hle | hlt
  · have h2 : stop - step + step - 1 = stop - 1 := by omega
    rw [h2]
  · have h2 : stop - step + step - 1 = step - 1 := by omega
    rw [h2, Nat.div_eq_of_lt (by omega), Nat.div_eq_of_lt (by omega)]

/-- Closed form of `range(0, stop, step)` for positive step: the
`⌈stop / step⌉` multiples of `step` below `stop`. -/
lemma pyRangeUp_closed (step : Nat) (hs : 0 < step) :
    ∀ stop, pyRangeUp 0 stop step
      = (List.range ((stop + step - 1) / step)).map (· * step) := by
  intro stop
  induction stop using Nat.strong_induction_on with
  | _ stop ih =>
    by_cases h0 : 0 < stop
    · rw [pyRangeUp_step h0 hs, pyRangeUp_shift step hs stop (0 + step),
        ih (stop - (0 + step)) (by omega)]
      rw [ceil_div_aux stop step h0 hs]
      have he : stop - (0 + step) = stop - step := by omega
      rw [he, List.range_succ_eq_map]
      simp only [List.map_cons, List.map_map, Nat.zero_mul]
      congr 1
      apply List.map_congr_left
      intro x _
      simp only [Function.comp_apply, Nat.succ_eq_add_one]
      ring
    · have hz : stop = 0 := by omega
      subst hz
      rw [pyRangeUp_stop (by omega)]
      have : (0 + step - 1) / step = 0 := Nat.div_eq_of_lt (by omega)
      rw [this]
      rfl

lemma length_pyRangeUp (stop step : Nat) (hs : 0 < step) :
    (pyRangeUp 0 stop step).length = (stop + step - 1) / step := by
  rw [pyRangeUp_closed step hs stop, List.length_map, List.length_range]

lemma storeChunks_map_text (i : Nat) (l : List (List Char)) :
    (storeChunks i l).map Chunk.text = l := by
  induction l generalizing i with
  | nil => rfl
  | cons c rest ih => simp [storeChunks, ih]

lemma storeChunks_length (i : Nat) (l : List (List Char)) :
    (storeChunks i l).length = l.length := by
  induction l generalizing i with
  | nil => rfl
  | cons c rest ih => simp [storeChunks, ih]

/-! ## Claim theorems -/

/-- Claim C2: for `overlap < chunk_size`, `process_transcript` splits the
document into the slices `D[i : i+chunk_size]` at the window starts
`i = 0, (C-O), 2(C-O), …` that are below `len D` (the multiples of
`chunk_size - overlap` in `range(0, len D, chunk_size - overlap)`), stores
exactly that many chunks, and returns that count, which equals
`⌈len D / (chunk_size - overlap)⌉` (as `(len D + (C-O) - 1) / (C-O)`, also
correct for the empty document). -/
theorem c2_chunk_count (D : List Char) (chunk_size overlap : Nat)
    (hO : overlap < chunk_size) :
    (process_transcript D chunk_size overlap).1
        = Except.ok (splitChunks D chunk_size overlap).length
      ∧ (process_transcript D chunk_size overlap).2.map Chunk.text
          = splitChunks D chunk_size overlap
      ∧ (process_transcript D chunk_size overlap).2.length
          = (splitChunks D chunk_size overlap).length
      ∧ splitChunks D chunk_size overlap
          = (pyRangeUp 0 D.length (chunk_size - overlap)).map
              (fun i => pySlice D i chunk_size)
      ∧ pyRangeUp 0 D.length (chunk_size - overlap)
          = (List.range
                ((D.length + (chunk_size - overlap) - 1)
                  / (chunk_size - overlap))).map (· * (chunk_size - overlap))
      ∧ (splitChunks D chunk_size overlap).length
          = (D.length + (chunk_size - overlap) - 1) / (chunk_size - overlap) := by
  have hproc : process_transcript D chunk_size overlap
      = (Except.ok (splitChunks D chunk_size overlap).length,
         storeChunks 0 (splitChunks D chunk_size overlap)) := by
    unfold process_transcript
    rw [if_neg (by omega), if_neg (by omega)]
  have hs : 0 < chunk_size - overlap := by omega
  refine ⟨by rw [hproc], ?_, ?_, rfl, pyRangeUp_closed _ hs D.length, ?_⟩
  · rw [hproc]
    exact storeChunks_map_text 0 _
  · rw [hproc]
    exact storeChunks_length 0 _
  · unfold splitChunks
    rw [List.length_map, length_pyRangeUp _ _ hs]

/-- Claim C2 witness: the amended statement at the spec's own scenario,
document `"AAAABBBBCCCC"`, `chunk_size 4`, `overlap 2` (six chunks). -/
theorem c2_chunk_count_witness :
    (process_transcript
          ['A', 'A', 'A', 'A', 'B', 'B', 'B', 'B', 'C', 'C', 'C', 'C'] 4 2).1
        = Except.ok (splitChunks
            ['A', 'A', 'A', 'A', 'B', 'B', 'B', 'B', 'C', 'C', 'C', 'C'] 4 2).length
      ∧ (process_transcript
            ['A', 'A', 'A', 'A', 'B', 'B', 'B', 'B', 'C', 'C', 'C', 'C'] 4 2).2.map
            Chunk.text
          = splitChunks
              ['A', 'A', 'A', 'A', 'B', 'B', 'B', 'B', 'C', 'C', 'C', 'C'] 4 2
      ∧ (process_transcript
            ['A', 'A', 'A', 'A', 'B', 'B', 'B', 'B', 'C', 'C', 'C', 'C'] 4 2).2.length
          = (splitChunks
              ['A', 'A', 'A', 'A', 'B', 'B', 'B', 'B', 'C', 'C', 'C', 'C'] 4 2).length
      ∧ splitChunks ['A', 'A', 'A', 'A', 'B', 'B', 'B', 'B', 'C', 'C', 'C', 'C'] 4 2
          = (pyRangeUp 0
              (['A', 'A', 'A', 'A', 'B', 'B', 'B', 'B', 'C', 'C', 'C', 'C'] :
                List Char).length (4 - 2)).map
              (fun i =>
                pySlice ['A', 'A', 'A', 'A', 'B', 'B', 'B', 'B', 'C', 'C', 'C', 'C']
                  i 4)
      ∧ pyRangeUp 0
            (['A', 'A', 'A', 'A', 'B', 'B', 'B', 'B', 'C', 'C', 'C', 'C'] :
              List Char).length (4 - 2)
          = (List.range
                (((['A', 'A', 'A', 'A', 'B', 'B', 'B', 'B', 'C', 'C', 'C', 'C'] :
                    List Char).length + (4 - 2) - 1) / (4 - 2))).map (· * (4 - 2))
      ∧ (splitChunks
            ['A', 'A', 'A', 'A', 'B', 'B', 'B', 'B', 'C', 'C', 'C', 'C'] 4 2).length
          = ((['A', 'A', 'A', 'A', 'B', 'B', 'B', 'B', 'C', 'C', 'C', 'C'] :
               List Char).length + (4 - 2) - 1) / (4 - 2) :=
  c2_chunk_count ['A', 'A', 'A', 'A', 'B', 'B', 'B', 'B', 'C', 'C', 'C', 'C'] 4 2
    (by decide)

/-- Claim C7: querying a store containing zero chunks returns the
distinguished exhausted-store sentinel string and leaves the store
unchanged; the function takes the early-return branch, so no other
observation (in particular no exception) can be produced. -/
theorem c7_empty_store_sentinel (pick : Nat) :
    query_transcript [] pick
      = ("CHROMADB_EMPTY: All chunks have been processed.", []) := rfl

/-- Claim C4 counterexample: on the freshly initialized accumulator every
section is empty, yet `get_final_summary` succeeds (it returns the snapshot),
contradicting the claim that it fails with `EmptySummaryError` when every
section is empty. -/
theorem c4_counterexample :
    allSectionsEmpty initSummarizer = true
      ∧ get_final_summary initSummarizer
          = Except.ok (generate_summary initSummarizer) := by
  exact ⟨rfl, rfl⟩

/-- Claim C4 (amended): on any accumulator whose sections are all empty,
`save_final_summary_result` fails with the empty-summary error observation
and writes nothing, while `get_final_summary` returns the snapshot
unconditionally (it performs no emptiness check and never fails); after one
`add_decision` the save succeeds and the saved artifact contains exactly
the one added Decisions block and no blocks in any other section. -/
theorem c4_empty_summary_behavior (s : MeetingSummarizer)
    (hs : allSectionsEmpty s = true) (id title content : String) :
    (save_final_summary_result s).1
        = "Error: No content found in summary. Please add some items first."
      ∧ (save_final_summary_result s).2 = none
      ∧ get_final_summary s = Except.ok (generate_summary s)
      ∧ save_final_summary_result (add_decision s id title content).1
          = ("Successfully saved final summary result to file",
             some { Agenda := s.Agenda
                    Decisions := { title := s.Decisions.title,
                                   blocks := [{ id := id, type := "decision",
                                                content := content,
                                                color := "default" }] }
                    ActionItems := s.ActionItems
                    ClosingRemarks := { title := "Closing Remarks",
                                        blocks := [] } }) := by
  simp only [allSectionsEmpty, Bool.and_eq_true, List.isEmpty_iff] at hs
  obtain ⟨⟨⟨hA, hD⟩, hI⟩, hC⟩ := hs
  refine ⟨?_, ?_, rfl, ?_⟩
  · simp [save_final_summary_result, generate_summary, hA, hD, hI]
  · simp [save_final_summary_result, generate_summary, hA, hD, hI]
  · simp [save_final_summary_result, generate_summary, add_decision,
      create_block, hA, hD, hI]

/-- Claim C4 witness: the amended theorem at the freshly initialized
accumulator and the concrete decision `("Budget", "Approved")` with uuid
`"u1"`. -/
theorem c4_empty_summary_behavior_witness :
    (save_final_summary_result initSummarizer).1
        = "Error: No content found in summary. Please add some items first."
      ∧ (save_final_summary_result initSummarizer).2 = none
      ∧ get_final_summary initSummarizer
          = Except.ok (generate_summary initSummarizer)
      ∧ save_final_summary_result
            (add_decision initSummarizer "u1" "Budget" "Approved").1
          = ("Successfully saved final summary result to file",
             some { Agenda := { title := "Agenda", blocks := [] }
                    Decisions := { title := "Decisions",
                                   blocks := [{ id := "u1", type := "decision",
                                                content := "Approved",
                                                color := "default" }] }
                    ActionItems := { title := "Action Items", blocks := [] }
                    ClosingRemarks := { title := "Closing Remarks",
                                        blocks := [] } }) :=
  c4_empty_summary_behavior initSummarizer rfl "u1" "Budget" "Approved"

/-- Claim C5 counterexample: calling `process_transcript` with
`overlap = 3 > 2 = chunk_size` does not fail at all — it returns
`Except.ok 0` (an empty `range` with negative step), storing no chunks.
The claimed `ConfigError` failure does not happen. -/
theorem c5_counterexample :
    (2 : Nat) < 3
      ∧ process_transcript ['a', 'b', 'c'] 2 3 = (Except.ok 0, []) := by
  exact ⟨by decide, rfl⟩

/-- Claim C5 (amended): `process_transcript` performs no parameter
validation.  With `overlap > chunk_size` it silently succeeds, returning a
count of `0` with zero chunks stored; with `overlap = chunk_size` the
underlying `range` raises `ValueError` (not a `ConfigError`), and since the
collection was cleared first, the store ends empty in both cases. -/
theorem c5_no_config_error (transcript : List Char) (chunk_size overlap : Nat)
    (h : chunk_size < overlap) :
    process_transcript transcript chunk_size overlap = (Except.ok 0, [])
      ∧ process_transcript transcript chunk_size chunk_size
          = (Except.error "ValueError: range() arg 3 must not be zero", []) := by
  constructor
  · unfold process_transcript
    rw [if_neg (by omega), if_pos h]
  · unfold process_transcript
    rw [if_pos rfl]

/-- Claim C5 witness: the amended theorem at the concrete input
`("abc", chunk_size 2, overlap 3)`. -/
theorem c5_no_config_error_witness :
    process_transcript ['a', 'b', 'c'] 2 3 = (Except.ok 0, [])
      ∧ process_transcript ['a', 'b', 'c'] 2 2
          = (Except.error "ValueError: range() arg 3 must not be zero", []) :=
  c5_no_config_error ['a', 'b', 'c'] 2 3 (by decide)

lemma splitChunks_nil (chunk_size overlap : Nat) :
    splitChunks [] chunk_size overlap = [] := by
  unfold splitChunks
  rw [pyRangeUp_stop (by simp)]
  rfl

lemma splitChunks_cons (D : List Char) (chunk_size overlap : Nat)
    (hO : overlap < chunk_size) (hD : D ≠ []) :
    splitChunks D chunk_size overlap
      = D.take chunk_size
          :: splitChunks (D.drop (chunk_size - overlap)) chunk_size overlap := by
  have hlen : 0 < D.length := List.length_pos.mpr hD
  have hs : 0 < chunk_size - overlap := by omega
  unfold splitChunks
  rw [pyRangeUp_step hlen hs,
    pyRangeUp_shift _ hs D.length (0 + (chunk_size - overlap))]
  simp only [List.map_cons, List.map_map, Nat.zero_add]
  rw [List.length_drop]
  congr 1
  apply List.map_congr_left
  intro x _
  simp only [Function.comp_apply, pySlice, List.drop_drop]
  rw [Nat.add_comm x (chunk_size - overlap)]

lemma joinOverlapTail_splitChunks (chunk_size overlap : Nat)
    (hO : overlap < chunk_size) :
    ∀ n (D : List Char), D.length ≤ n →
      joinOverlapTail overlap (splitChunks D chunk_size overlap)
        = D.drop overlap := by
  intro n
  induction n with
  | zero =>
      intro D h
      have hD : D = [] := by
        cases D with
        | nil => rfl
        | cons a t => simp at h
      subst hD
      rw [splitChunks_nil, List.drop_nil]
      rfl
  | succ n ih =>
      intro D h
      by_cases hD : D = []
      · subst hD
        rw [splitChunks_nil, List.drop_nil]
        rfl
      · have hlen : 0 < D.length := List.length_pos.mpr hD
        rw [splitChunks_cons D _ _ hO hD]
        show (D.take chunk_size).drop overlap
            ++ joinOverlapTail overlap
                (splitChunks (D.drop (chunk_size - overlap)) chunk_size overlap)
          = D.drop overlap
        rw [ih (D.drop (chunk_size - overlap))
            (by rw [List.length_drop]; omega)]
        rw [List.drop_take, List.drop_drop,
          Nat.add_comm (chunk_size - overlap) overlap]
        exact List.drop_take_append_drop D overlap (chunk_size - overlap)

lemma splitChunks_getElem? (D : List Char) (chunk_size overlap : Nat)
    (hO : overlap < chunk_size) (j : Nat) (a : List Char)
    (h : (splitChunks D chunk_size overlap)[j]? = some a) :
    a = pySlice D (j * (chunk_size - overlap)) chunk_size := by
  have hs : 0 < chunk_size - overlap := by omega
  unfold splitChunks at h
  rw [pyRangeUp_closed _ hs, List.map_map, List.getElem?_map] at h
  by_cases hj :
      j < (D.length + (chunk_size - overlap) - 1) / (chunk_size - overlap)
  · rw [List.getElem?_range hj] at h
    rw [Option.map_some'] at h
    exact (Option.some.inj h).symm
  · rw [List.getElem?_eq_none (by rw [List.length_range]; omega)] at h
    simp at h

/-- Claim C3: for `overlap < chunk_size`, the chunk list of ingestion
round-trips — the first chunk followed by each subsequent chunk minus its
first `overlap` characters reconstructs the document exactly — and any two
consecutive full-length chunks overlap in exactly `overlap` characters (the
last `overlap` characters of chunk `j` are the first `overlap` characters
of chunk `j+1`). -/
theorem c3_round_trip (D : List Char) (chunk_size overlap : Nat)
    (hO : overlap < chunk_size) :
    joinOverlap overlap (splitChunks D chunk_size overlap) = D
      ∧ ∀ j a b, (splitChunks D chunk_size overlap)[j]? = some a →
          (splitChunks D chunk_size overlap)[j + 1]? = some b →
          a.length = chunk_size → b.length = chunk_size →
          a.drop (chunk_size - overlap) = b.take overlap := by
  constructor
  · by_cases hD : D = []
    · subst hD
      rw [splitChunks_nil]
      rfl
    · rw [splitChunks_cons D _ _ hO hD]
      show D.take chunk_size
          ++ joinOverlapTail overlap
              (splitChunks (D.drop (chunk_size - overlap)) chunk_size overlap)
        = D
      rw [joinOverlapTail_splitChunks _ _ hO (D.drop (chunk_size - overlap)).length
          (D.drop (chunk_size - overlap)) (Nat.le_refl _)]
      rw [List.drop_drop]
      have he : chunk_size - overlap + overlap = chunk_size := by omega
      rw [he]
      exact List.take_append_drop chunk_size D
  · intro j a b ha hb _ _
    have ea := splitChunks_getElem? D _ _ hO j a ha
    have eb := splitChunks_getElem? D _ _ hO (j + 1) b hb
    subst ea
    subst eb
    unfold pySlice
    rw [List.drop_take, List.drop_drop, List.take_take]
    have h1 : chunk_size - (chunk_size - overlap) = overlap := by omega
    have h2 : min overlap chunk_size = overlap :=
      Nat.min_eq_left (Nat.le_of_lt hO)
    have h3 : j * (chunk_size - overlap) + (chunk_size - overlap)
        = (j + 1) * (chunk_size - overlap) := by ring
    rw [h1, h2, h3]

/-- Claim C3 witness: the round-trip theorem at the spec's scenario,
document `"AAAABBBBCCCC"`, `chunk_size 4`, `overlap 2`. -/
theorem c3_round_trip_witness :
    joinOverlap 2
        (splitChunks ['A', 'A', 'A', 'A', 'B', 'B', 'B', 'B', 'C', 'C', 'C', 'C']
          4 2)
      = ['A', 'A', 'A', 'A', 'B', 'B', 'B', 'B', 'C', 'C', 'C', 'C']
      ∧ ∀ j a b,
          (splitChunks ['A', 'A', 'A', 'A', 'B', 'B', 'B', 'B', 'C', 'C', 'C', 'C']
            4 2)[j]? = some a →
          (splitChunks ['A', 'A', 'A', 'A', 'B', 'B', 'B', 'B', 'C', 'C', 'C', 'C']
            4 2)[j + 1]? = some b →
          a.length = 4 → b.length = 4 → a.drop (4 - 2) = b.take 2 :=
  c3_round_trip ['A', 'A', 'A', 'A', 'B', 'B', 'B', 'B', 'C', 'C', 'C', 'C'] 4 2
    (by decide)

/-- Claim C6: the claim is right about the intended design and the code
drops the title — `create_block` accepts a `title` argument but constructs
the block from `id`, `type`, `content`, `color` only, so blocks built from
two different titles are identical and the stored block for
`("Budget", "Approved")` carries no title field at all. -/
theorem c6_title_dropped :
    create_block "u1" "Budget" "Approved" "decision" "default"
        = create_block "u1" "Ignored title" "Approved" "decision" "default"
      ∧ create_block "u1" "Budget" "Approved" "decision" "default"
          = { id := "u1", type := "decision", content := "Approved",
              color := "default" } := by
  exact ⟨rfl, rfl⟩

/-- Claim C8 counterexample: `add_action_item` with an *empty title*
succeeds — it returns the success observation and appends a block — so the
claimed `ValidationError` on empty titles does not exist. -/
theorem c8_counterexample :
    (add_action_item initSummarizer "u1" "" "do it").2
        = "Successfully added action item: u1"
      ∧ (add_action_item initSummarizer "u1" "" "do it").1.ActionItems.blocks
          = [{ id := "u1", type := "action", content := "do it",
               color := "default" }] := by
  exact ⟨rfl, rfl⟩

/-- Claim C8 (amended): the add operations never fail for any input,
including an empty title: each appends exactly one block to its section and
returns its success observation (no validation of any argument is
performed; the title is not even stored). -/
theorem c8_add_never_fails (s : MeetingSummarizer) (id title content : String) :
    (add_action_item s id title content).2
        = "Successfully added action item: " ++ id
      ∧ (add_action_item s id title content).1.ActionItems.blocks
          = s.ActionItems.blocks ++ [create_block id title content "action"]
      ∧ (add_agenda_item s id title content).2
          = "Successfully added agenda item: " ++ id
      ∧ (add_agenda_item s id title content).1.Agenda.blocks
          = s.Agenda.blocks ++ [create_block id title content "agenda"]
      ∧ (add_decision s id title content).2
          = "Successfully added decision: " ++ id
      ∧ (add_decision s id title content).1.Decisions.blocks
          = s.Decisions.blocks ++ [create_block id title content "decision"] := by
  exact ⟨rfl, rfl, rfl, rfl, rfl, rfl⟩

/-- Claim C9: every generated summary has an empty Closing Remarks section
(a fresh empty section is substituted regardless of the stored one, for any
accumulator state whatsoever, reachable or not); `get_final_summary` and
`save_final_summary_result` return exactly that generated summary, and no
tool transition ever changes the accumulator's `ClosingRemarks` section. -/
theorem c9_closing_remarks_empty (s : MeetingSummarizer) (st : AgentState)
    (tc : ToolCall) :
    (generate_summary s).ClosingRemarks.blocks = []
      ∧ get_final_summary s = Except.ok (generate_summary s)
      ∧ (save_final_summary_result s).2.elim True
          (fun art => art.ClosingRemarks.blocks = [])
      ∧ (stepTool st tc).summ.ClosingRemarks = st.summ.ClosingRemarks := by
  refine ⟨rfl, rfl, ?_, ?_⟩
  · unfold save_final_summary_result
    dsimp only
    split
    · trivial
    · rfl
  · cases tc <;> rfl

/-! ## Fused read-and-delete consumption (C1, C10) -/

lemma dropWhile_append_single (c : Char) (hc : isPySpace c = true)
    (l : List Char) :
    (l ++ [c]).dropWhile isPySpace
      = if (l.dropWhile isPySpace).isEmpty then []
        else l.dropWhile isPySpace ++ [c] := by
  induction l with
  | nil => simp [List.dropWhile_cons, hc]
  | cons a t ih =>
      rw [List.cons_append, List.dropWhile_cons, List.dropWhile_cons]
      by_cases ha : isPySpace a = true
      · rw [if_pos ha, if_pos ha, ih]
      · rw [if_neg ha, if_neg ha]
        simp

/-- Stripping `"\n" + doc + "\n"` gives the same result as stripping `doc`
directly. -/
lemma pyStrip_wrap (t : List Char) :
    pyStrip (('\n' :: t) ++ ['\n']) = pyStrip t := by
  have hn : isPySpace '\n' = true := rfl
  unfold pyStrip
  rw [List.cons_append, List.dropWhile_cons, if_pos hn,
    dropWhile_append_single '\n' hn t]
  by_cases he : (t.dropWhile isPySpace).isEmpty = true
  · rw [if_pos he, List.isEmpty_iff.mp he]
  · rw [if_neg he, List.reverse_append]
    simp only [List.reverse_cons, List.reverse_nil, List.nil_append,
      List.singleton_append]
    rw [List.dropWhile_cons, if_pos hn]

/-- On a store whose similarity index returns the chunk `c`, the query tool
returns the stripped text of `c` and removes `c`'s id from the store. -/
lemma query_transcript_some (store : List Chunk) (pick : Nat) (c : Chunk)
    (hc : store[pick]? = some c) :
    query_transcript store pick
      = (String.mk (pyStrip c.text),
         store.filter (fun x => !(x.id == c.id))) := by
  have hne : store ≠ [] := by
    intro h
    subst h
    simp at hc
  have hemp : ¬store.isEmpty = true := by
    simpa [List.isEmpty_iff] using hne
  unfold query_transcript
  rw [if_neg hemp, hc]
  dsimp only
  rw [pyStrip_wrap]

/-- With pairwise-distinct ids, deleting `c.id` removes exactly one
chunk. -/
lemma filter_ne_id_length (store : List Chunk) (c : Chunk)
    (hnd : (store.map Chunk.id).Nodup) (hc : c ∈ store) :
    (store.filter (fun x => !(x.id == c.id))).length = store.length - 1 := by
  induction store with
  | nil => cases hc
  | cons b t ih =>
      rw [List.map_cons, List.nodup_cons] at hnd
      rcases List.mem_cons.mp hc with hbc | hct
      · subst hbc
        rw [List.filter_cons, if_neg (by simp)]
        have hall : ∀ x ∈ t, (!(x.id == c.id)) = true := by
          intro x hx
          have hne : x.id ≠ c.id := by
            intro he
            exact hnd.1 (by rw [← he]; exact List.mem_map_of_mem Chunk.id hx)
          simp [hne]
        rw [List.filter_eq_self.mpr hall]
        simp
      · have hbne : (!(b.id == c.id)) = true := by
          have hne : b.id ≠ c.id := by
            intro he
            exact hnd.1 (by rw [he]; exact List.mem_map_of_mem Chunk.id hct)
          simp [hne]
        rw [List.filter_cons, if_pos hbne]
        simp only [List.length_cons]
        rw [ih hnd.2 hct]
        have hpos : 0 < t.length := List.length_pos.mpr (by
          intro hte
          rw [hte] at hct
          cases hct)
        omega

/-- The deleted id is gone from the post-query store. -/
lemma id_not_mem_filter (store : List Chunk) (c : Chunk) :
    c.id ∉ (store.filter (fun x => !(x.id == c.id))).map Chunk.id := by
  intro hmem
  rcases List.mem_map.mp hmem with ⟨x, hx, hxe⟩
  rcases List.mem_filter.mp hx with ⟨_, hpx⟩
  simp only [Bool.not_eq_eq_eq_not, Bool.not_true, beq_eq_false_iff_ne,
    ne_eq] at hpx
  exact hpx hxe

lemma query_store_sublist (store : List Chunk) (pick : Nat) :
    List.Sublist (query_transcript store pick).2 store := by
  unfold query_transcript
  by_cases he : store.isEmpty = true
  · rw [if_pos he]
  · rw [if_neg he]
    rcases hq : store[pick]? with _ | c
    · exact List.Sublist.refl store
    · exact List.filter_sublist store

lemma delete_store_sublist (ctx : RunContext) (store : List Chunk) :
    List.Sublist (delete_processed_chunks ctx store).2.1 store := by
  obtain ⟨pc⟩ := ctx
  cases pc with
  | none => exact List.Sublist.refl store
  | some ids =>
      show List.Sublist
        (delete_processed_chunks { processed_chunks := some ids } store).2.1 store
      unfold delete_processed_chunks
      dsimp only
      by_cases he : ids.isEmpty = true
      · rw [if_pos he]
      · rw [if_neg he]
        exact List.filter_sublist store

/-- No tool ever adds a chunk: each transition's store is a sublist of the
previous one. -/
lemma stepTool_store_sublist (s : AgentState) (tc : ToolCall) :
    List.Sublist (stepTool s tc).store s.store := by
  cases tc with
  | queryTranscript pick => exact query_store_sublist s.store pick
  | addActionItem id title content => exact List.Sublist.refl _
  | addAgendaItem id title content => exact List.Sublist.refl _
  | addDecision id title content => exact List.Sublist.refl _
  | saveFinalSummaryResult => exact List.Sublist.refl _
  | getFinalSummary => exact List.Sublist.refl _
  | deleteProcessedChunks => exact delete_store_sublist s.ctx s.store

lemma runTools_store_sublist (calls : List ToolCall) :
    ∀ s : AgentState, List.Sublist (runTools s calls).store s.store := by
  induction calls with
  | nil => intro s; exact List.Sublist.refl _
  | cons tcall rest ih =>
      intro s
      exact (ih (stepTool s tcall)).trans (stepTool_store_sublist s tcall)

/-- No tool ever sets `processed_chunks`: starting from a context without
the attribute, every transition leaves the context unchanged. -/
lemma stepTool_ctx_none (s : AgentState) (tc : ToolCall)
    (h : s.ctx.processed_chunks = none) :
    (stepTool s tc).ctx = s.ctx := by
  cases tc with
  | queryTranscript pick => rfl
  | addActionItem id title content => rfl
  | addAgendaItem id title content => rfl
  | addDecision id title content => rfl
  | saveFinalSummaryResult => rfl
  | getFinalSummary => rfl
  | deleteProcessedChunks =>
      show (delete_processed_chunks s.ctx s.store).2.2 = s.ctx
      unfold delete_processed_chunks
      rw [h]

lemma runTools_ctx_none (calls : List ToolCall) :
    ∀ s : AgentState, s.ctx.processed_chunks = none →
      (runTools s calls).ctx = s.ctx := by
  induction calls with
  | nil => intro s _; rfl
  | cons tcall rest ih =>
      intro s h
      have h1 := stepTool_ctx_none s tcall h
      have h2 := ih (stepTool s tcall) (by rw [h1, h])
      show (runTools (stepTool s tcall) rest).ctx = s.ctx
      rw [h2, h1]

/-- Claim C10: starting from the run context the framework provides (which
carries no `processed_chunks` attribute) no tool sequence can ever create
one, so after any sequence of tool invocations `delete_processed_chunks`
returns `"No chunks to delete"` and leaves the chunk store unchanged. -/
theorem c10_delete_processed_noop (store : List Chunk)
    (summ : MeetingSummarizer) (calls : List ToolCall) :
    (delete_processed_chunks
          (runTools { ctx := { processed_chunks := none }, store := store,
                      summ := summ } calls).ctx
          (runTools { ctx := { processed_chunks := none }, store := store,
                      summ := summ } calls).store).1
        = "No chunks to delete"
      ∧ (delete_processed_chunks
            (runTools { ctx := { processed_chunks := none }, store := store,
                        summ := summ } calls).ctx
            (runTools { ctx := { processed_chunks := none }, store := store,
                        summ := summ } calls).store).2.1
          = (runTools { ctx := { processed_chunks := none }, store := store,
                        summ := summ } calls).store := by
  have hctx :=
    runTools_ctx_none calls
      { ctx := { processed_chunks := none }, store := store, summ := summ } rfl
  rw [hctx]
  exact ⟨rfl, rfl⟩

/-- Claim C1 counterexample: on a store whose single chunk has text
`"a\n"`, `query_transcript` returns `"a"` — the `.strip()` of
`"\n" + doc + "\n"` — which is *not* the text of the chunk, so the claim
that the call returns the chunk's text is false as stated. -/
theorem c1_counterexample :
    (query_transcript [{ id := "id_0", text := ['a', '\n'] }] 0).1 = "a"
      ∧ String.mk ['a', '\n'] ≠ "a" := by
  constructor
  · rfl
  · decide

/-- Claim C1 (amended): on a store with pairwise-distinct ids whose
similarity index answers the query with the chunk `c`, `query_transcript`
returns the *whitespace-stripped* text of `c`, deletes `c`'s id before
returning (fused read+delete), so the chunk count strictly decreases by
one, the id is absent from the resulting store, and — since no later tool
invocation ever re-adds a chunk — no later query can return the consumed
chunk again. -/
theorem c1_query_consumes (store : List Chunk) (pick : Nat) (c : Chunk)
    (hnd : (store.map Chunk.id).Nodup) (hc : store[pick]? = some c) :
    (query_transcript store pick).1 = String.mk (pyStrip c.text)
      ∧ (query_transcript store pick).2.length = store.length - 1
      ∧ c.id ∉ (query_transcript store pick).2.map Chunk.id
      ∧ ∀ (summ : MeetingSummarizer) (calls : List ToolCall) (pick₂ : Nat)
          (c₂ : Chunk),
          (runTools { ctx := { processed_chunks := none },
                      store := (query_transcript store pick).2,
                      summ := summ } calls).store[pick₂]? = some c₂ →
          c₂.id ≠ c.id := by
  have hq := query_transcript_some store pick c hc
  have hcm : c ∈ store := List.getElem?_mem hc
  refine ⟨by rw [hq], ?_, ?_, ?_⟩
  · rw [hq]
    exact filter_ne_id_length store c hnd hcm
  · rw [hq]
    exact id_not_mem_filter store c
  · intro summ calls pick₂ c₂ h₂
    have hmem₂ : c₂ ∈ (query_transcript store pick).2 :=
      (runTools_store_sublist calls _).subset (List.getElem?_mem h₂)
    rw [hq] at hmem₂
    rcases List.mem_filter.mp hmem₂ with ⟨_, hp⟩
    simp only [Bool.not_eq_eq_eq_not, Bool.not_true, beq_eq_false_iff_ne,
      ne_eq] at hp
    exact hp

/-- Claim C1 witness: the amended theorem at the concrete one-chunk store
`[⟨"id_0", "hi"⟩]` with the index answering position `0`. -/
theorem c1_query_consumes_witness :
    (query_transcript [{ id := "id_0", text := ['h', 'i'] }] 0).1
        = String.mk (pyStrip ['h', 'i'])
      ∧ (query_transcript [{ id := "id_0", text := ['h', 'i'] }] 0).2.length
          = ([{ id := "id_0", text := ['h', 'i'] }] : List Chunk).length - 1
      ∧ "id_0" ∉
          (query_transcript [{ id := "id_0", text := ['h', 'i'] }] 0).2.map
            Chunk.id
      ∧ ∀ (summ : MeetingSummarizer) (calls : List ToolCall) (pick₂ : Nat)
          (c₂ : Chunk),
          (runTools { ctx := { processed_chunks := none },
                      store :=
                        (query_transcript
                          [{ id := "id_0", text := ['h', 'i'] }] 0).2,
                      summ := summ } calls).store[pick₂]? = some c₂ →
          c₂.id ≠ "id_0" :=
  c1_query_consumes [{ id := "id_0", text := ['h', 'i'] }] 0
    { id := "id_0", text := ['h', 'i'] } (by decide) rfl

end MeetingMinutes
